import Mathlib

/-!
Verification of the tickBot ticket-workflow orchestrator.

The definitions below are a shallow embedding of the Python sources
`tick/actions.py`, `tickdb/schema.py` and `tickdb/query.py`:
pure functions are translated directly, stateful database code becomes
explicit state passing over a list of rows, waits on the event stream
become functions over explicit lists of candidate events, and fallible
code returns `Option` or a dedicated outcome type.
-/

/-! ## Persistence model (tickdb/schema.py, tickdb/query.py)

A `Ticket` row mirrors the columns of the `tickets` table that the
claims touch.  `channel_id` is declared `unique=True` in the schema; a
SQL unique column admits any number of NULLs but at most one row per
non-NULL value, which the guarded mutation operations below enforce
exactly as the database engine would. -/

structure Ticket where
  id : Nat
  guild_id : Nat
  user_id : Nat
  supporter_id : Nat
  channel_id : Option Nat
deriving DecidableEq

/-- True when no row of the database already carries the given channel id.
This is the unique-index admission check on the `channel_id` column. -/
def chanFree (db : List Ticket) : Option Nat → Bool
  | Option.none => true
  | some c => db.all (fun t => decide (t.channel_id ≠ some c))

/-- True when no row of the database already carries the given primary key. -/
def idFree (db : List Ticket) (i : Nat) : Bool :=
  db.all (fun t => decide (t.id ≠ i))

/-- Insert a row (session.add + flush): rejected when the primary key or a
non-null channel id collides with an existing row. -/
def insertTicket (db : List Ticket) (t : Ticket) : Option (List Ticket) :=
  if idFree db t.id && chanFree db t.channel_id then some (db ++ [t]) else Option.none

/-- Assign `ticket.channel_id = channel.id` then commit: the unique index
rejects the update when another row already holds that channel id. -/
def setChannel (db : List Ticket) (tid c : Nat) : Option (List Ticket) :=
  if chanFree (db.filter (fun t => decide (t.id ≠ tid))) (some c) then
    some (db.map (fun t => if t.id = tid then { t with channel_id := some c } else t))
  else Option.none

/-- Delete a row by primary key (session.delete). -/
def deleteTicket (db : List Ticket) (tid : Nat) : List Ticket :=
  db.filter (fun t => decide (t.id ≠ tid))

/-- Database states reachable from the empty table through the guarded
insert / channel-assignment / delete operations. -/
inductive Reachable : List Ticket → Prop
  | nil : Reachable []
  | insert {db t db'} : Reachable db → insertTicket db t = some db' → Reachable db'
  | setChan {db tid c db'} : Reachable db → setChannel db tid c = some db' → Reachable db'
  | delete {db tid} : Reachable db → Reachable (deleteTicket db tid)

/-- Two rows are compatible when their primary keys differ and they do not
share a non-null backing channel id. -/
def ChanOK (a b : Ticket) : Prop :=
  a.id ≠ b.id ∧ ∀ c, a.channel_id = some c → b.channel_id ≠ some c

/-- The database invariant: all rows pairwise compatible. -/
def dbInv : List Ticket → Prop
  | [] => True
  | t :: rest => (∀ u ∈ rest, ChanOK t u) ∧ dbInv rest

/-- Python truthiness of the optional keyword arguments of `get_ticket`:
`if user_id:` / `if channel_id:` treat both `None` and `0` as absent. -/
def truthy : Option Nat → Bool
  | Option.none => false
  | some n => decide (n ≠ 0)

/-- Outcome of SQLAlchemy `Query.one()`: the row, or `NoResultFound`, or
`MultipleResultsFound`. -/
inductive QueryResult (α : Type)
  | found (a : α)
  | noResultFound
  | multipleResultsFound
deriving DecidableEq

/-- Embedding of `tickdb.query.get_ticket`: filter by guild id, then by the
optional user id and channel id, then apply `.one()`. -/
def get_ticket (db : List Ticket) (gid : Nat) (uid cid : Option Nat) : QueryResult Ticket :=
  let q1 := db.filter (fun t => decide (t.guild_id = gid))
  let q2 := if truthy uid then q1.filter (fun t => decide (some t.user_id = uid)) else q1
  let q3 := if truthy cid then q2.filter (fun t => decide (t.channel_id = cid)) else q2
  match q3 with
  | [] => QueryResult.noResultFound
  | [t] => QueryResult.found t
  | _ => QueryResult.multipleResultsFound

lemma chanFree_spec {db : List Ticket} {c : Nat} (h : chanFree db (some c) = true) :
    ∀ u ∈ db, u.channel_id ≠ some c := by
  intro u hu
  have := List.all_eq_true.mp h u hu
  simpa using this

lemma idFree_spec {db : List Ticket} {i : Nat} (h : idFree db i = true) :
    ∀ u ∈ db, u.id ≠ i := by
  intro u hu
  have := List.all_eq_true.mp h u hu
  simpa using this

lemma dbInv_append_singleton {db : List Ticket} {t : Ticket}
    (hinv : dbInv db) (hok : ∀ u ∈ db, ChanOK u t) : dbInv (db ++ [t]) := by
  induction db with
  | nil => exact ⟨by simp, trivial⟩
  | cons h rest ih =>
    obtain ⟨hh, hrest⟩ := hinv
    refine ⟨?_, ih hrest (fun u hu => hok u (List.mem_cons_of_mem _ hu))⟩
    intro u hu
    rcases List.mem_append.mp hu with hu | hu
    · exact hh u hu
    · have : u = t := by simpa using hu
      subst this
      exact hok h (List.mem_cons_self _ _)

lemma dbInv_filter {db : List Ticket} (p : Ticket → Bool) (hinv : dbInv db) :
    dbInv (db.filter p) := by
  induction db with
  | nil => simpa using hinv
  | cons h rest ih =>
    obtain ⟨hh, hrest⟩ := hinv
    by_cases hp : p h
    · rw [List.filter_cons_of_pos hp]
      exact ⟨fun u hu => hh u (List.mem_of_mem_filter hu), ih hrest⟩
    · rw [List.filter_cons_of_neg hp]
      exact ih hrest

lemma dbInv_insert {db : List Ticket} {t : Ticket} {db' : List Ticket}
    (hinv : dbInv db) (h : insertTicket db t = some db') : dbInv db' := by
  unfold insertTicket at h
  by_cases hc : idFree db t.id && chanFree db t.channel_id
  · rw [if_pos hc] at h
    rw [Bool.and_eq_true] at hc
    obtain ⟨hid, hchan⟩ := hc
    cases h
    refine dbInv_append_singleton hinv ?_
    intro u hu
    refine ⟨idFree_spec hid u hu, ?_⟩
    intro c hc' hc''
    rw [hc''] at hchan
    exact chanFree_spec hchan u hu hc'
  · rw [if_neg hc] at h
    exact absurd h (by simp)

lemma dbInv_setChannel {db : List Ticket} {tid c : Nat} {db' : List Ticket}
    (hinv : dbInv db) (h : setChannel db tid c = some db') : dbInv db' := by
  unfold setChannel at h
  by_cases hc : chanFree (db.filter (fun t => decide (t.id ≠ tid))) (some c) = true
  · rw [if_pos hc] at h
    cases h
    have hguard : ∀ u ∈ db, u.id ≠ tid → u.channel_id ≠ some c := by
      intro u hu hid
      exact chanFree_spec hc u (List.mem_filter.mpr ⟨hu, by simpa using hid⟩)
    clear hc
    induction db with
    | nil => simpa using hinv
    | cons hd rest ih =>
      obtain ⟨hh, hrest⟩ := hinv
      refine ⟨?_, ih hrest (fun u hu hid => hguard u (List.mem_cons_of_mem _ hu) hid)⟩
      intro u hu
      rw [List.mem_map] at hu
      obtain ⟨v, hv, rfl⟩ := hu
      have hok : ChanOK hd v := hh v hv
      obtain ⟨hid, hch⟩ := hok
      by_cases h1 : hd.id = tid
      · have h2 : v.id ≠ tid := by rw [← h1]; exact fun hvv => hid hvv.symm
        refine ⟨?_, ?_⟩
        · simp only [if_pos h1, if_neg h2]
          exact hid
        · intro c' hc1 hc2
          simp only [if_pos h1] at hc1
          simp only [if_neg h2] at hc2
          have : c' = c := by injection hc1 with hcc; exact hcc.symm
          subst this
          exact hguard v (List.mem_cons_of_mem _ hv) h2 hc2
      · by_cases h2 : v.id = tid
        · refine ⟨?_, ?_⟩
          · simp only [if_neg h1, if_pos h2]
            exact hid
          · intro c' hc1 hc2
            simp only [if_neg h1] at hc1
            simp only [if_pos h2] at hc2
            have : c' = c := by injection hc2 with hcc; exact hcc.symm
            subst this
            exact hguard hd (List.mem_cons_self _ _) h1 hc1
        · refine ⟨?_, ?_⟩
          · simp only [if_neg h1, if_neg h2]
            exact hid
          · intro c' hc1 hc2
            simp only [if_neg h1] at hc1
            simp only [if_neg h2] at hc2
            exact hch c' hc1 hc2
  · rw [if_neg hc] at h
    exact absurd h (by simp)

lemma dbInv_reachable {db : List Ticket} (h : Reachable db) : dbInv db := by
  induction h with
  | nil => trivial
  | insert _ hop ih => exact dbInv_insert ih hop
  | setChan _ hop ih => exact dbInv_setChannel ih hop
  | delete _ ih => exact dbInv_filter _ ih

lemma dbInv_filter_channel_le_one {db : List Ticket} (hinv : dbInv db) (c : Nat) :
    (db.filter (fun t => decide (t.channel_id = some c))).length ≤ 1 := by
  induction db with
  | nil => simp
  | cons h rest ih =>
    obtain ⟨hh, hrest⟩ := hinv
    by_cases hp : h.channel_id = some c
    · rw [List.filter_cons_of_pos (by simpa using hp)]
      have : rest.filter (fun t => decide (t.channel_id = some c)) = [] := by
        apply List.filter_eq_nil_iff.mpr
        intro u hu
        have := (hh u hu).2 c hp
        simpa using this
      rw [this]
      simp
    · rw [List.filter_cons_of_neg (by simpa using hp)]
      exact ih hrest

lemma get_ticket_by_channel_not_multiple {db : List Ticket} (hinv : dbInv db)
    (gid c : Nat) (hc : c ≠ 0) :
    get_ticket db gid Option.none (some c) ≠ QueryResult.multipleResultsFound := by
  have h1 : truthy Option.none = false := rfl
  have h2 : truthy (some c) = true := by simp [truthy, hc]
  unfold get_ticket
  rw [h1, h2]
  simp only [Bool.false_eq_true, if_false, if_true]
  have hlen : ((db.filter (fun t => decide (t.guild_id = gid))).filter
      (fun t => decide (t.channel_id = some c))).length ≤ 1 :=
    dbInv_filter_channel_le_one (dbInv_filter _ hinv) c
  revert hlen
  cases ((db.filter (fun t => decide (t.guild_id = gid))).filter
      (fun t => decide (t.channel_id = some c))) with
  | nil => intro _; simp
  | cons a l =>
    cases l with
    | nil => intro _; simp
    | cons b l' => intro hlen; simp at hlen

/-- C3: at any time at most one Ticket row exists per backing channel id
(distinct rows never share a non-null channel id, as enforced by the
`unique=True` column), and a lookup by channel id through `get_ticket`,
which expects exactly one match via `.one()`, can therefore never fail
with `MultipleResultsFound`. -/
theorem ticket_channel_unique_invariant :
    ∀ db, Reachable db →
      dbInv db ∧
      ∀ gid c, c ≠ 0 →
        get_ticket db gid Option.none (some c) ≠ QueryResult.multipleResultsFound := by
  intro db h
  have hinv := dbInv_reachable h
  exact ⟨hinv, fun gid c hc => get_ticket_by_channel_not_multiple hinv gid c hc⟩

/-- Witness: a concrete reachable single-row database satisfies the invariant
and its channel lookup does not report multiple results. -/
theorem ticket_channel_unique_invariant_witness :
    dbInv [⟨1, 5, 7, 8, some 42⟩] ∧
    get_ticket [⟨1, 5, 7, 8, some 42⟩] 5 Option.none (some 42) ≠
      QueryResult.multipleResultsFound :=
  ⟨(ticket_channel_unique_invariant _
      (@Reachable.insert [] ⟨1, 5, 7, 8, some 42⟩ _ Reachable.nil (by rfl))).1,
   (ticket_channel_unique_invariant _
      (@Reachable.insert [] ⟨1, 5, 7, 8, some 42⟩ _ Reachable.nil (by rfl))).2 5 42 (by decide)⟩

/-! ## Ticket.close (tick/actions.py)

`Ticket.close` runs: lookup of the ticket row by channel id; a first
yes/no confirmation; transcript creation and delivery to the log channel;
a second yes/no prompt asking whether to DM the log; if the DM was
requested and the member is still present, the DM is attempted and a
`discord.Forbidden` error sends a notice and returns early; only after
all of that does it delete the channel and then the row.  The model
abstracts each external interaction into an input describing its
outcome and records which destructive effects were performed. -/

inductive CloseOutcome
  | invalidChannel
  | cancelledTimeout
  | abortedDmForbidden
  | completed
deriving DecidableEq

structure CloseEffects where
  channelDeleted : Bool
  rowDeleted : Bool
deriving DecidableEq

/-- Embedding of `Ticket.close`.  `ticketFound` is the outcome of the row
lookup; `confirm_close` and `confirm_dm` are the two reaction prompts
(`Option.none` models a `TimeoutError` inside the wait); `userFound` is
whether `guild.get_member` still resolves the requester; `dmForbidden`
is whether `user.send` raises `discord.Forbidden`. -/
def Ticket.close (ticketFound : Bool) (confirm_close confirm_dm : Option Bool)
    (userFound dmForbidden : Bool) : CloseOutcome × CloseEffects :=
  if !ticketFound then (CloseOutcome.invalidChannel, ⟨false, false⟩)
  else
    match confirm_close with
    | Option.none => (CloseOutcome.cancelledTimeout, ⟨false, false⟩)
    | some false => (CloseOutcome.cancelledTimeout, ⟨false, false⟩)
    | some true =>
      match confirm_dm with
      | Option.none => (CloseOutcome.cancelledTimeout, ⟨false, false⟩)
      | some wantDm =>
        if wantDm && userFound && dmForbidden then
          (CloseOutcome.abortedDmForbidden, ⟨false, false⟩)
        else
          (CloseOutcome.completed, ⟨true, true⟩)

/-- C1: whenever a DM log was requested and the direct message to the
requesting user fails with a forbidden error, the close aborts entirely:
the channel is not deleted and the Ticket row is not deleted, whatever
the other inputs were. -/
theorem close_aborts_on_forbidden_dm :
    ∀ (ticketFound : Bool) (confirm_close confirm_dm : Option Bool)
      (userFound dmForbidden : Bool),
      confirm_dm = some true → userFound = true → dmForbidden = true →
      (Ticket.close ticketFound confirm_close confirm_dm userFound dmForbidden).2.channelDeleted
        = false ∧
      (Ticket.close ticketFound confirm_close confirm_dm userFound dmForbidden).2.rowDeleted
        = false := by
  decide

/-- Witness: the abort at a concrete run where both confirmations were
accepted, the member is present and the DM is forbidden. -/
theorem close_aborts_on_forbidden_dm_witness :
    (Ticket.close true (some true) (some true) true true).2.channelDeleted = false ∧
    (Ticket.close true (some true) (some true) true true).2.rowDeleted = false :=
  close_aborts_on_forbidden_dm true (some true) (some true) true true rfl rfl rfl

/-! ## Permission overwrites (DISCORD_PERMS and Ticket.swap, tick/actions.py)

`discord.PermissionOverwrite` defaults every flag to neutral (`None`);
the presets in `DISCORD_PERMS` set exactly the flags written in the
source.  A channel's overwrite map is a Python dict keyed by principal
(role or member); dict assignment updates in place or appends, and the
whole map is handed to `channel.edit(overwrites=...)` in one call. -/

structure PermissionOverwrite where
  read_messages : Option Bool := Option.none
  send_messages : Option Bool := Option.none
  manage_messages : Option Bool := Option.none
  manage_channels : Option Bool := Option.none
  manage_permissions : Option Bool := Option.none
  read_message_history : Option Bool := Option.none
  add_reactions : Option Bool := Option.none
deriving DecidableEq

def DISCORD_PERMS_bot : PermissionOverwrite :=
  { read_messages := some true, send_messages := some true, manage_messages := some true,
    manage_channels := some true, manage_permissions := some true,
    read_message_history := some true, add_reactions := some true }

def DISCORD_PERMS_none : PermissionOverwrite :=
  { read_messages := some false, send_messages := some false,
    read_message_history := some false, add_reactions := some false }

def DISCORD_PERMS_user : PermissionOverwrite :=
  { read_messages := some true, send_messages := some true,
    read_message_history := some true, add_reactions := some true }

def DISCORD_PERMS_overseer : PermissionOverwrite :=
  { read_messages := some true, send_messages := some true, manage_messages := some true,
    read_message_history := some true }

/-- A principal that can key a channel permission-overwrite map. -/
inductive Principal
  | defaultRole
  | me
  | member (id : Nat)
  | role (id : Nat)
deriving DecidableEq

/-- Python dict assignment `overwrites[k] = v`: replace the entry if the key
is present, append it otherwise (dicts preserve insertion order). -/
def setKey : List (Principal × PermissionOverwrite) → Principal → PermissionOverwrite →
    List (Principal × PermissionOverwrite)
  | [], k, v => [(k, v)]
  | (a, b) :: rest, k, v =>
    if a = k then (k, v) :: rest else (a, b) :: setKey rest k v

/-- Python dict lookup `overwrites[k]`, returning an `Option`. -/
def getKey : List (Principal × PermissionOverwrite) → Principal → Option PermissionOverwrite
  | [], _ => Option.none
  | (a, b) :: rest, k => if a = k then some b else getKey rest k

/-- The overwrite map built for a fresh ticket channel in `ticket_request`:
pool denied, bot full control, requester and responder `user`, then each
configured overseer role added with the `overseer` preset. -/
def ticket_request_overwrites (user responder : Principal) (overseers : List Principal) :
    List (Principal × PermissionOverwrite) :=
  overseers.foldl (fun m r => setKey m r DISCORD_PERMS_overseer)
    [(Principal.defaultRole, DISCORD_PERMS_none), (Principal.me, DISCORD_PERMS_bot),
     (user, DISCORD_PERMS_user), (responder, DISCORD_PERMS_user)]

/-- Embedding of the permission update in `Ticket.swap`: start from the
channel's current overwrite map, set the old responder to the `none`
preset and the new responder to the `user` preset, then apply the whole
map in a single `channel.edit(overwrites=...)` call. -/
def Ticket.swap_overwrites (cur : List (Principal × PermissionOverwrite))
    (old_responder responder : Principal) : List (Principal × PermissionOverwrite) :=
  setKey (setKey cur old_responder DISCORD_PERMS_none) responder DISCORD_PERMS_user

lemma getKey_setKey_same (m : List (Principal × PermissionOverwrite))
    (k : Principal) (v : PermissionOverwrite) : getKey (setKey m k v) k = some v := by
  induction m with
  | nil => simp [setKey, getKey]
  | cons p rest ih =>
    obtain ⟨a, b⟩ := p
    by_cases h : a = k
    · simp [setKey, getKey, h]
    · simp [setKey, getKey, h, ih]

lemma getKey_setKey_other (m : List (Principal × PermissionOverwrite))
    (k k' : Principal) (v : PermissionOverwrite) (hne : k' ≠ k) :
    getKey (setKey m k v) k' = getKey m k' := by
  induction m with
  | nil => simp [setKey, getKey, Ne.symm hne]
  | cons p rest ih =>
    obtain ⟨a, b⟩ := p
    by_cases h : a = k
    · subst h
      simp [setKey, getKey, Ne.symm hne]
    · simp only [setKey, if_neg h]
      by_cases h' : a = k'
      · simp [getKey, h']
      · simp [getKey, h', ih]

/-- Counterexample to C4: the claim says the unclaim/swap transition grants
the default role group (the pool) the `user` preset.  On a concrete
swap over the creation-time overwrite map, the pool entry is left at the
`none` preset it had before the swap, which differs from `user`. -/
theorem swap_pool_not_granted_user :
    getKey
      (Ticket.swap_overwrites
        (ticket_request_overwrites (Principal.member 7) (Principal.member 8) [])
        (Principal.member 8) (Principal.member 9))
      Principal.defaultRole = some DISCORD_PERMS_none ∧
    DISCORD_PERMS_none ≠ DISCORD_PERMS_user := by
  decide

/-- C4, amended: the swap transition sets the prior responder's overwrite to
the explicit-deny preset `none` and the new responder's to `user`, leaves
every other principal's entry — in particular the default role group's —
exactly as it was, and is applied as one wholesale overwrite-map replace
(the function yields the complete new map handed to a single
`channel.edit`). -/
theorem swap_overwrites_spec :
    ∀ (cur : List (Principal × PermissionOverwrite)) (old_responder responder : Principal),
      old_responder ≠ responder →
      getKey (Ticket.swap_overwrites cur old_responder responder) old_responder
          = some DISCORD_PERMS_none ∧
      getKey (Ticket.swap_overwrites cur old_responder responder) responder
          = some DISCORD_PERMS_user ∧
      ∀ k, k ≠ old_responder → k ≠ responder →
        getKey (Ticket.swap_overwrites cur old_responder responder) k = getKey cur k := by
  intro cur old_responder responder hne
  refine ⟨?_, ?_, ?_⟩
  · rw [Ticket.swap_overwrites, getKey_setKey_other _ _ _ _ hne, getKey_setKey_same]
  · rw [Ticket.swap_overwrites, getKey_setKey_same]
  · intro k hk1 hk2
    rw [Ticket.swap_overwrites, getKey_setKey_other _ _ _ _ hk2,
        getKey_setKey_other _ _ _ _ hk1]

/-- Witness: the amended swap behaviour at a concrete map and responders. -/
theorem swap_overwrites_spec_witness :
    getKey
      (Ticket.swap_overwrites
        (ticket_request_overwrites (Principal.member 7) (Principal.member 8) [])
        (Principal.member 8) (Principal.member 9))
      (Principal.member 8) = some DISCORD_PERMS_none ∧
    getKey
      (Ticket.swap_overwrites
        (ticket_request_overwrites (Principal.member 7) (Principal.member 8) [])
        (Principal.member 8) (Principal.member 9))
      (Principal.member 9) = some DISCORD_PERMS_user :=
  ⟨(swap_overwrites_spec _ _ _ (by decide)).1,
   (swap_overwrites_spec _ _ _ (by decide)).2.1⟩

/-! ## Responder matching (request_check_roles, tick/actions.py)

`request_check_roles` closes over the client, the posted prompt, the
requesting user and the eligible roles, and yields the predicate handed
to `wait_for('reaction_add', ...)`.  The predicate returns whether the
gesture resolves the wait, and as a side effect schedules removal of the
reaction when — and only when — it reached the role checks and failed
them; gestures from the bot itself or on another message return early
without scheduling a removal. -/

structure Role where
  id : Nat
  name : String
deriving DecidableEq

structure Member where
  id : Nat
  roles : List Role
deriving DecidableEq

structure Reaction where
  message_id : Nat
  emoji : String
deriving DecidableEq

/-- Result of one evaluation of a reaction predicate: whether the wait
resolves, and whether the predicate scheduled removal of the gesture. -/
structure CheckResult where
  resolves : Bool
  removes : Bool
deriving DecidableEq

/-- Embedding of the inner `request_check` of `request_check_roles`. -/
def request_check (botId sentId userId : Nat) (roles : List Role)
    (adminRole yes no : String) (c_react : Reaction) (c_user : Member) : CheckResult :=
  if c_user.id = botId ∨ c_react.message_id ≠ sentId then ⟨false, false⟩
  else
    let can_respond := c_user.roles.any (fun r => roles.any (fun x => decide (x.id = r.id)))
                        && decide (c_user.id ≠ userId)
    let can_cancel := decide (c_user.id = userId)
                        || c_user.roles.any (fun r => decide (r.name = adminRole))
    let response := (can_respond && decide (c_react.emoji = yes))
                        || (can_cancel && decide (c_react.emoji = no))
    ⟨response, !response⟩

/-- Resolution of `wait_for`: the first gesture in the event stream whose
predicate resolves ends the wait and is returned; earlier gestures are
consumed without resolving it. -/
def resolve_wait (check : Reaction → Member → CheckResult) :
    List (Reaction × Member) → Option (Reaction × Member)
  | [] => Option.none
  | (r, u) :: rest => if (check r u).resolves then some (r, u) else resolve_wait check rest

lemma resolve_wait_resolves {check : Reaction → Member → CheckResult}
    {gs : List (Reaction × Member)} {r : Reaction} {u : Member}
    (h : resolve_wait check gs = some (r, u)) : (check r u).resolves = true := by
  induction gs with
  | nil => simp [resolve_wait] at h
  | cons p rest ih =>
    obtain ⟨r0, u0⟩ := p
    unfold resolve_wait at h
    by_cases hc : (check r0 u0).resolves
    · rw [if_pos hc] at h
      simp only [Option.some.injEq, Prod.mk.injEq] at h
      obtain ⟨rfl, rfl⟩ := h
      exact hc
    · rw [if_neg hc] at h
      exact ih h

/-- Counterexample to C2: the claim says a gesture on the wrong message, or
by the bot itself, "never resolves the wait and is removed from the
message".  Such gestures indeed never resolve, but the predicate returns
early without scheduling a removal: an eligible member reacting with the
accept emoji on a different message, and the bot reacting on the prompt
itself, are both left in place. -/
theorem request_check_wrong_message_not_removed :
    request_check 0 10 1 [⟨2, "helper"⟩] "Ticket Supervisor" "y" "n"
        ⟨11, "y"⟩ ⟨3, [⟨2, "helper"⟩]⟩ = ⟨false, false⟩ ∧
    (11 : Nat) ≠ 10 ∧
    request_check 0 10 1 [⟨2, "helper"⟩] "Ticket Supervisor" "y" "n"
        ⟨10, "y"⟩ ⟨0, []⟩ = ⟨false, false⟩ := by
  decide

/-- C2, amended: a resolved matching wait returns exactly one actor, and
under the accept gesture that actor holds at least one eligible role, is
not the requesting user and is not the bot, and reacted on the prompt
message itself; moreover every gesture on the prompt message from a
non-bot actor that does not qualify fails to resolve the wait and is
scheduled for removal (gestures from the bot or on other messages are
merely ignored). -/
theorem request_check_accept_qualified :
    ∀ (botId sentId userId : Nat) (roles : List Role) (adminRole yes no : String)
      (gs : List (Reaction × Member)) (r : Reaction) (u : Member),
      yes ≠ no →
      resolve_wait (request_check botId sentId userId roles adminRole yes no) gs
        = some (r, u) →
      r.emoji = yes →
      ((∃ mr ∈ u.roles, ∃ ar ∈ roles, ar.id = mr.id) ∧ u.id ≠ userId ∧ u.id ≠ botId ∧
        r.message_id = sentId) ∧
      ∀ (r' : Reaction) (u' : Member), u'.id ≠ botId → r'.message_id = sentId →
        (request_check botId sentId userId roles adminRole yes no r' u').resolves = false →
        (request_check botId sentId userId roles adminRole yes no r' u').removes = true := by
  intro botId sentId userId roles adminRole yes no gs r u hyn hres hy
  constructor
  · have h := resolve_wait_resolves hres
    unfold request_check at h
    by_cases hearly : u.id = botId ∨ r.message_id ≠ sentId
    · rw [if_pos hearly] at h
      simp at h
    · rw [if_neg hearly] at h
      push_neg at hearly
      obtain ⟨hbot, hmsg⟩ := hearly
      simp only [hy, hyn, decide_eq_true_eq, decide_not, Bool.and_eq_true,
        Bool.or_eq_true, decide_eq_false_iff_not, not_false_eq_true] at h
      rcases h with ⟨⟨hroles, huser⟩, -⟩ | ⟨-, habs⟩
      · refine ⟨?_, ?_, hbot, hmsg⟩
        · obtain ⟨mr, hmr, hmr2⟩ := List.any_eq_true.mp hroles
          obtain ⟨ar, har, har2⟩ := List.any_eq_true.mp hmr2
          exact ⟨mr, hmr, ar, har, of_decide_eq_true har2⟩
        · simpa using huser
      · exact habs.elim
  · intro r' u' hbot hmsg h
    unfold request_check at h ⊢
    rw [if_neg (by simp [hbot, hmsg])] at h ⊢
    simp only at h ⊢
    rw [h]
    rfl

/-- Witness: a concrete resolved accept gesture from an eligible member. -/
theorem request_check_accept_qualified_witness :
    (∃ mr ∈ [Role.mk 2 "helper"], ∃ ar ∈ [Role.mk 2 "helper"], ar.id = mr.id) ∧
    (3 : Nat) ≠ 1 ∧ (3 : Nat) ≠ 0 ∧ (10 : Nat) = 10 :=
  (request_check_accept_qualified 0 10 1 [⟨2, "helper"⟩] "Ticket Supervisor" "y" "n"
    [(⟨10, "y"⟩, ⟨3, [⟨2, "helper"⟩]⟩)] ⟨10, "y"⟩ ⟨3, [⟨2, "helper"⟩]⟩
    (by decide) (by decide) rfl).1

/-! ## Intake dialog (RequestGather.ask_questions, tick/actions.py)

`ask_questions` walks the configured questions in order; for each it
waits for the requester's next accepted reply (`wait_for_response`),
appends the reply to `self.responses`, and raises `CancelledError` when
`resp.content.lower() == QUESTIONS_CANCEL`.  A `TimeoutError` from the
wait aborts the dialog.  The reply stream is modelled as one entry per
question: `some content` for an accepted reply, `Option.none` for a wait
that timed out. -/

def QUESTIONS_CANCEL : String := "cancel"

/-- Python `str.lower()` on the reply content, character by character. -/
def str_lower (s : String) : String := String.mk (s.data.map Char.toLower)

inductive AskOutcome
  | completed (responses : List String)
  | cancelled (responses : List String)
  | timedOut (responses : List String)
deriving DecidableEq

def ask_questions_loop : List (Option String) → List String → List String → AskOutcome
  | _, [], responses => AskOutcome.completed responses
  | [], _ :: _, responses => AskOutcome.timedOut responses
  | Option.none :: _, _ :: _, responses => AskOutcome.timedOut responses
  | some a :: arest, _ :: qrest, responses =>
    if str_lower a = QUESTIONS_CANCEL then AskOutcome.cancelled (responses ++ [a])
    else ask_questions_loop arest qrest (responses ++ [a])

/-- Embedding of `RequestGather.ask_questions` over the configured question
list and the stream of per-question reply outcomes. -/
def ask_questions (questions : List String) (answers : List (Option String)) : AskOutcome :=
  ask_questions_loop answers questions []

lemma ask_questions_loop_cancel (pre : List String) :
    ∀ (qs : List String) (acc : List String) (c : String) (rest : List (Option String)),
      pre.length < qs.length →
      (∀ s ∈ pre, str_lower s ≠ QUESTIONS_CANCEL) →
      str_lower c = QUESTIONS_CANCEL →
      ask_questions_loop (pre.map some ++ some c :: rest) qs acc
        = AskOutcome.cancelled (acc ++ pre ++ [c]) := by
  induction pre with
  | nil =>
    intro qs acc c rest hlen _ hc
    cases qs with
    | nil => simp at hlen
    | cons q qrest =>
      simp only [List.map_nil, List.nil_append, ask_questions_loop, hc, if_pos]
      simp
  | cons s pre' ih =>
    intro qs acc c rest hlen hpre hc
    cases qs with
    | nil => simp at hlen
    | cons q qrest =>
      have hs : str_lower s ≠ QUESTIONS_CANCEL := hpre s (List.mem_cons_self _ _)
      simp only [List.map_cons, List.cons_append, List.append_eq, ask_questions_loop,
        if_neg hs]
      have hlen' : pre'.length < qrest.length := by
        simp only [List.length_cons] at hlen
        omega
      rw [ih qrest (acc ++ [s]) c rest hlen'
        (fun x hx => hpre x (List.mem_cons_of_mem _ hx)) hc]
      simp

/-- Counterexample to C6: the claim says the cancel-token match is exact.
It is case-insensitive: a reply of "Cancel" — which differs from the
reserved token "cancel" — still cancels the dialog (the source compares
`resp.content.lower()`; the preamble even invites the user to type
"Cancel"). -/
theorem ask_questions_cancel_case_insensitive :
    ask_questions ["first question"] [some "Cancel"]
      = AskOutcome.cancelled ["Cancel"] ∧
    "Cancel" ≠ QUESTIONS_CANCEL := by
  decide

/-- C6, amended: whenever the requester's reply at any question index
matches the reserved cancel token up to ASCII case (exact matches
included), and no earlier reply did, the dialog yields the `Cancelled`
outcome — regardless of which question index the token occurs at — so
the enclosing request is aborted and no Ticket row is created. -/
theorem ask_questions_cancel_any_index :
    ∀ (questions : List String) (pre : List String) (c : String)
      (rest : List (Option String)),
      pre.length < questions.length →
      (∀ s ∈ pre, str_lower s ≠ QUESTIONS_CANCEL) →
      str_lower c = QUESTIONS_CANCEL →
      ask_questions questions (pre.map some ++ some c :: rest)
        = AskOutcome.cancelled (pre ++ [c]) := by
  intro questions pre c rest hlen hpre hc
  unfold ask_questions
  rw [ask_questions_loop_cancel pre questions [] c rest hlen hpre hc]
  simp

/-- Witness: cancelling at the second of three questions. -/
theorem ask_questions_cancel_any_index_witness :
    ask_questions ["q one", "q two", "q three"]
        (["an answer"].map some ++ some "CANCEL" :: [])
      = AskOutcome.cancelled ["an answer", "CANCEL"] :=
  ask_questions_cancel_any_index ["q one", "q two", "q three"] ["an answer"] "CANCEL" []
    (by decide) (by decide) (by decide)

/-! ## Transcript archiver (create_log, tick/actions.py)

`create_log` reads the channel's full history oldest-first, writes the
`TRANSCRIPT_HEADER` block, then one `TRANSCRIPT_ENTRY` per message in
order, buffering entries in `to_flush` and writing the buffer out
whenever it exceeds 10000 characters, with a final write of any
remainder.  A message of the history is modelled by the fields the
archiver reads. -/

structure Message where
  created_at : String
  author_name : String
  author_id : Nat
  content : String
deriving DecidableEq

/-- The `TRANSCRIPT_HEADER` template of tick/actions.py. -/
def TRANSCRIPT_HEADER (name author opened closed : String) : String :=
  "Transcript of ticket " ++ name ++ " opened by " ++ author ++ ".\n" ++
  "Opened on: " ++ opened ++ "\n" ++
  "Closed on: " ++ closed ++ "\n" ++
  "-----------------------------\n"

/-- The `TRANSCRIPT_ENTRY` template of tick/actions.py. -/
def TRANSCRIPT_ENTRY (date author : String) (id : Nat) (msg : String) : String :=
  date ++ " " ++ author ++ " (" ++ toString id ++ ")\n" ++
  msg ++ "\n" ++
  "-----------------------------\n"

def transcript_entry_of (m : Message) : String :=
  TRANSCRIPT_ENTRY m.created_at m.author_name m.author_id m.content

/-- One step of the buffered writer: append the entry to `to_flush` and
write the buffer through when it exceeds 10000 characters.  The state is
(file contents so far, pending buffer). -/
def log_flush_step (acc : String × String) (m : Message) : String × String :=
  if (acc.2 ++ transcript_entry_of m).length > 10000 then
    (acc.1 ++ (acc.2 ++ transcript_entry_of m), "")
  else
    (acc.1, acc.2 ++ transcript_entry_of m)

def joinStrings : List String → String
  | [] => ""
  | s :: rest => s ++ joinStrings rest

/-- Embedding of `create_log`: `last` is the `last_msg` argument, `history`
the channel history oldest-first.  On an empty history the source dies
with an unbound `first_msg` (`Option.none` here); otherwise the file
contents are the header followed by the flushed entries. -/
def create_log (chanName : String) (last : Message) (history : List Message) : Option String :=
  match history.head? with
  | Option.none => Option.none
  | some first =>
    let header := TRANSCRIPT_HEADER chanName last.author_name first.created_at last.created_at
    let r := history.foldl log_flush_step ("", "")
    if r.2 = "" then some (header ++ r.1) else some (header ++ r.1 ++ r.2)

lemma log_flush_fold (msgs : List Message) :
    ∀ file buf,
      (msgs.foldl log_flush_step (file, buf)).1 ++ (msgs.foldl log_flush_step (file, buf)).2
        = file ++ buf ++ joinStrings (msgs.map transcript_entry_of) := by
  induction msgs with
  | nil => intro file buf; simp [joinStrings]
  | cons m rest ih =>
    intro file buf
    simp only [List.foldl_cons, List.map_cons, joinStrings]
    have hstep : log_flush_step (file, buf) m =
        if (buf ++ transcript_entry_of m).length > 10000 then
          (file ++ (buf ++ transcript_entry_of m), "")
        else (file, buf ++ transcript_entry_of m) := rfl
    by_cases hb : (buf ++ transcript_entry_of m).length > 10000
    · rw [hstep, if_pos hb, ih]
      simp [String.append_assoc]
    · rw [hstep, if_neg hb, ih]
      simp [String.append_assoc]

/-- C5: for every non-empty channel history, the archived file is exactly
the header block followed by one `timestamp author (id) / body / ---`
entry per message of the history, in history order — the chunked
flushing never reorders, drops or duplicates an entry. -/
theorem create_log_transcript_roundtrip :
    ∀ (chanName : String) (last first : Message) (rest : List Message),
      create_log chanName last (first :: rest)
        = some (TRANSCRIPT_HEADER chanName last.author_name first.created_at last.created_at
            ++ joinStrings ((first :: rest).map transcript_entry_of)) := by
  intro chanName last first rest
  unfold create_log
  simp only [List.head?_cons]
  have hfold := log_flush_fold (first :: rest) "" ""
  simp only [String.empty_append] at hfold
  by_cases hr : ((first :: rest).foldl log_flush_step ("", "")).2 = ""
  · rw [if_pos hr]
    rw [hr] at hfold
    simp only [String.append_empty] at hfold
    rw [hfold]
  · rw [if_neg hr]
    rw [String.append_assoc, hfold]

/-! ## Single-actor confirmation (wait_for_user_reaction, tick/actions.py)

`wait_for_user_reaction` posts the prompt, adds the two emojis and waits
with the predicate `user == author and str(react) in (yes, no)`.  The
predicate never inspects which message the reaction landed on and never
schedules a removal; on resolution the function returns
`str(react) == yes`. -/

/-- Embedding of the inner `check` of `wait_for_user_reaction`: the actor
is compared with the author and the emoji with the two affordances; the
prompt message is not consulted and no removal is scheduled. -/
def wait_for_user_reaction_check (author : Nat) (yes no : String)
    (c_react : Reaction) (c_user : Nat) : CheckResult :=
  ⟨decide (c_user = author) && (decide (c_react.emoji = yes) || decide (c_react.emoji = no)),
   false⟩

/-- The value `wait_for_user_reaction` returns on resolution:
`str(react) == yes`. -/
def wait_for_user_reaction_result (yes : String) (c_react : Reaction) : Bool :=
  decide (c_react.emoji = yes)

/-- Counterexample to C9: the claim says the wait resolves only on gestures
whose target is the prompt message the function posted.  The predicate
never looks at the message: the author's accept reaction resolves it on
two different messages, at most one of which can be the prompt. -/
theorem wait_for_user_reaction_ignores_message_target :
    (wait_for_user_reaction_check 5 "y" "n" ⟨999, "y"⟩ 5).resolves = true ∧
    (wait_for_user_reaction_check 5 "y" "n" ⟨1000, "y"⟩ 5).resolves = true ∧
    (999 : Nat) ≠ 1000 := by
  decide

/-- C9, amended: the single-actor confirmation resolves exactly on a
gesture by the specified author using the accept or decline emoji —
regardless of which message the gesture targets — it returns true
exactly when the accept emoji was used, and it never schedules removal
of a disqualifying gesture. -/
theorem wait_for_user_reaction_check_spec :
    ∀ (author : Nat) (yes no : String) (c_react : Reaction) (c_user : Nat),
      ((wait_for_user_reaction_check author yes no c_react c_user).resolves = true ↔
        (c_user = author ∧ (c_react.emoji = yes ∨ c_react.emoji = no))) ∧
      (wait_for_user_reaction_check author yes no c_react c_user).removes = false ∧
      (wait_for_user_reaction_result yes c_react = true ↔ c_react.emoji = yes) := by
  intro author yes no r u
  refine ⟨?_, rfl, by simp [wait_for_user_reaction_result]⟩
  simp [wait_for_user_reaction_check]

/-! ## Suspension points of the core (tick/actions.py)

Every suspension of the workflow happens at a `wait_for(event, check=…)`
call, either directly or through `wait_for_user_reaction`.  The table
below lists every such call site in tick/actions.py together with the
timeout argument it passes; `Option.none` records a call made without a
timeout, which `discord.Client.wait_for` treats as waiting forever. -/

structure WaitSite where
  location : String
  event : String
  timeout : Option String
deriving DecidableEq

/-- All `wait_for` call sites of tick/actions.py with their timeouts. -/
def coreWaitSites : List WaitSite :=
  [⟨"Admin.pin", "message", Option.none⟩,
   ⟨"Admin.guild_setup.log_channel", "message", Option.none⟩,
   ⟨"Admin.guild_setup.ticket_channel", "message", Option.none⟩,
   ⟨"Admin.guild_setup.category", "message", Option.none⟩,
   ⟨"Admin.ticket_setup.channel_prefix", "message", Option.none⟩,
   ⟨"Admin.ticket_setup.emoji", "reaction_add", Option.none⟩,
   ⟨"Admin.ticket_setup.timeout", "message", Option.none⟩,
   ⟨"Admin.ticket_setup.roles", "message", Option.none⟩,
   ⟨"Ticket.swap", "reaction_add", some "RESPONSE_TIMEOUT"⟩,
   ⟨"Ticket.review", "reaction_add", some "RESPONSE_TIMEOUT"⟩,
   ⟨"RequestGather.needs_adult", "reaction_add", some "RESPONSE_TIMEOUT"⟩,
   ⟨"RequestGather.wait_for_response", "message", some "RESPONSE_TIMEOUT"⟩,
   ⟨"ticket_request", "reaction_add", some "REQUEST_TIMEOUT"⟩,
   ⟨"practice_ticket_request", "reaction_add", Option.none⟩,
   ⟨"wait_for_user_reaction", "reaction_add", some "RESPONSE_TIMEOUT"⟩]

/-- Counterexample to C7: not every wait call of the core carries an
explicit timeout — the matching wait of `practice_ticket_request` and
every wait of the admin setup dialogs pass none and can suspend
unboundedly. -/
theorem core_wait_sites_not_all_bounded :
    coreWaitSites.all (fun s => s.timeout.isSome) = false := by
  rfl

/-- C7, amended: the waits of the ticket lifecycle (close confirmations,
swap, review, intake dialog, regular ticket matching) are each bounded
by an explicit timeout, but the matching wait of
`practice_ticket_request` and all waits of the admin setup dialogs
(`Admin.pin`, `Admin.guild_setup`, `Admin.ticket_setup`) pass no timeout
and can suspend unboundedly. -/
theorem core_wait_sites_unbounded_exactly :
    (coreWaitSites.filter (fun s => s.timeout.isNone)).map (fun s => s.location)
      = ["Admin.pin", "Admin.guild_setup.log_channel",
         "Admin.guild_setup.ticket_channel", "Admin.guild_setup.category",
         "Admin.ticket_setup.channel_prefix", "Admin.ticket_setup.emoji",
         "Admin.ticket_setup.timeout", "Admin.ticket_setup.roles",
         "practice_ticket_request"] ∧
    (coreWaitSites.filter (fun s => s.timeout.isSome)).map (fun s => s.location)
      = ["Ticket.swap", "Ticket.review", "RequestGather.needs_adult",
         "RequestGather.wait_for_response", "ticket_request",
         "wait_for_user_reaction"] := by
  exact ⟨rfl, rfl⟩

/-! ## Inactivity watchdog (spec §4.5) -/

structure WatchedTicket where
  id : Nat
  monitored : Bool
  lastMsgAge : Option Nat
  lastMsgByBot : Bool
  timeout : Nat
deriving DecidableEq

/-- Modelled from the spec: the inactivity watchdog task is absent from the
source tree (only its collaborators are present), so its scan is taken
from §4.5 — a monitored ticket is closed exactly when the single
most-recent message of its backing channel is older than the flow's
configured inactivity threshold and was not authored by the system
itself. -/
def watchdog_should_close (t : WatchedTicket) : Bool :=
  t.monitored &&
    (match t.lastMsgAge with
     | some age => decide (age > t.timeout) && !t.lastMsgByBot
     | Option.none => false)

/-- Modelled from the spec: one full scan closes exactly the tickets that
`watchdog_should_close` selects. -/
def watchdog_scan (tickets : List WatchedTicket) : List WatchedTicket :=
  tickets.filter watchdog_should_close

/-- Modelled from the spec: after a full scan the task sleeps for a fixed
interval and reschedules itself indefinitely; the time of the n-th scan
is n intervals after start, so a scan exists for every n and the task
never terminates. -/
def watchdog_schedule (interval : Nat) : Nat → Nat
  | 0 => 0
  | n + 1 => watchdog_schedule interval n + interval

/-- C8: on every scan the watchdog closes a monitored ticket only when its
single most-recent message is older than the flow's threshold and was
not authored by the system itself; it never closes a ticket whose most
recent message is at most the threshold old; and after every scan the
next scan is scheduled one fixed interval later, indefinitely. -/
theorem watchdog_scan_spec :
    (∀ (tickets : List WatchedTicket) (t : WatchedTicket),
      t ∈ watchdog_scan tickets →
        t.monitored = true ∧
        ∃ age, t.lastMsgAge = some age ∧ age > t.timeout ∧ t.lastMsgByBot = false) ∧
    (∀ (tickets : List WatchedTicket) (t : WatchedTicket) (age : Nat),
      t.lastMsgAge = some age → age ≤ t.timeout → t ∉ watchdog_scan tickets) ∧
    (∀ interval n, watchdog_schedule interval (n + 1)
        = watchdog_schedule interval n + interval) := by
  refine ⟨?_, ?_, fun interval n => rfl⟩
  · intro tickets t ht
    have hc : watchdog_should_close t = true := (List.mem_filter.mp ht).2
    unfold watchdog_should_close at hc
    rw [Bool.and_eq_true] at hc
    obtain ⟨hmon, hrest⟩ := hc
    refine ⟨hmon, ?_⟩
    cases hage : t.lastMsgAge with
    | none => rw [hage] at hrest; simp at hrest
    | some age =>
      rw [hage] at hrest
      rw [Bool.and_eq_true] at hrest
      obtain ⟨h1, h2⟩ := hrest
      exact ⟨age, rfl, of_decide_eq_true h1, by simpa using h2⟩
  · intro tickets t age hage hyoung ht
    have hc : watchdog_should_close t = true := (List.mem_filter.mp ht).2
    unfold watchdog_should_close at hc
    rw [Bool.and_eq_true] at hc
    rw [hage] at hc
    rw [Bool.and_eq_true] at hc
    obtain ⟨-, h1, -⟩ := hc
    exact absurd (of_decide_eq_true h1) (by omega)

/-- Witness: a monitored ticket whose last message is exactly at the
threshold is not closed by a concrete scan. -/
theorem watchdog_scan_spec_witness :
    WatchedTicket.mk 1 true (some 7200) false 7200 ∉
      watchdog_scan [WatchedTicket.mk 1 true (some 7200) false 7200] :=
  watchdog_scan_spec.2.1 [WatchedTicket.mk 1 true (some 7200) false 7200]
    (WatchedTicket.mk 1 true (some 7200) false 7200) 7200 rfl (by decide)

/-! ## Intake answer wait (RequestGather.wait_for_response, tick/actions.py)

`wait_for_response` loops: wait for the requester's next message in the
channel with `timeout=RESPONSE_TIMEOUT`; if its content exceeds
`MAX_QUESTION_LEN` characters, send the too-long notice and loop again —
each new iteration passes the full timeout again.  The incoming replies
are modelled with the delay at which each arrived within its own wait
window; a reply later than the window never arrives and the wait raises
`TimeoutError`. -/

def MAX_QUESTION_LEN : Nat := 500

structure Incoming where
  content : String
  delay : Nat
deriving DecidableEq

/-- Embedding of `RequestGather.wait_for_response`: returns the accepted
content together with the total time spent across all the waits, or
`Option.none` for a `TimeoutError`. -/
def wait_for_response (timeout : Nat) : List Incoming → Option (String × Nat)
  | [] => Option.none
  | m :: rest =>
    if m.delay > timeout then Option.none
    else if m.content.length > MAX_QUESTION_LEN then
      match wait_for_response timeout rest with
      | some (a, t) => some (a, m.delay + t)
      | Option.none => Option.none
    else some (m.content, m.delay)

/-- A 501-character reply, one over `MAX_QUESTION_LEN`. -/
def overlong_reply : String := String.mk (List.replicate (MAX_QUESTION_LEN + 1) 'a')

lemma overlong_reply_length : overlong_reply.length = MAX_QUESTION_LEN + 1 := by
  simp [overlong_reply, String.length]

lemma wait_for_response_replicate (timeout : Nat) :
    ∀ k, wait_for_response timeout
        (List.replicate k ⟨overlong_reply, timeout⟩ ++ [⟨"ok", timeout⟩])
      = some ("ok", k * timeout + timeout) := by
  intro k
  induction k with
  | zero =>
    simp only [List.replicate, List.nil_append]
    unfold wait_for_response
    simp only [show (⟨"ok", timeout⟩ : Incoming).delay = timeout from rfl,
               show (⟨"ok", timeout⟩ : Incoming).content = "ok" from rfl]
    rw [if_neg (by omega)]
    rw [if_neg (by decide)]
    simp
  | succ n ih =>
    simp only [List.replicate, List.cons_append]
    unfold wait_for_response
    simp only [show (⟨overlong_reply, timeout⟩ : Incoming).delay = timeout from rfl,
               show (⟨overlong_reply, timeout⟩ : Incoming).content = overlong_reply from rfl]
    rw [if_neg (by omega)]
    rw [if_pos (by rw [overlong_reply_length]; omega)]
    rw [ih]
    show some ("ok", timeout + (n * timeout + timeout))
      = some ("ok", (n + 1) * timeout + timeout)
    simp only [Option.some.injEq, Prod.mk.injEq, true_and]
    ring

/-- C10: every over-length answer re-prompts and starts a fresh wait with
the full response timeout again — acceptance of a reply depends only on
its delay within its own window, so the window is reset by each invalid
answer; consequently each individual wait is bounded (the total elapsed
time never exceeds timeout times the number of replies consumed) while
the total time spent on one question is unbounded: for every bound there
is a reply sequence the dialog accepts after exceeding it. -/
theorem wait_for_response_timeout_reset :
    (∀ (timeout : Nat) (m : Incoming) (rest : List Incoming),
      m.delay ≤ timeout → m.content.length > MAX_QUESTION_LEN →
      wait_for_response timeout (m :: rest)
        = (wait_for_response timeout rest).map (fun p => (p.1, m.delay + p.2))) ∧
    (∀ (timeout : Nat) (msgs : List Incoming) (a : String) (t : Nat),
      wait_for_response timeout msgs = some (a, t) → t ≤ timeout * msgs.length) ∧
    (∀ (bound timeout : Nat), 0 < timeout →
      ∃ (msgs : List Incoming) (a : String) (t : Nat),
        wait_for_response timeout msgs = some (a, t) ∧ t > bound) := by
  refine ⟨?_, ?_, ?_⟩
  · intro timeout m rest hdelay hlong
    conv_lhs => unfold wait_for_response
    rw [if_neg (by omega), if_pos hlong]
    cases hrec : wait_for_response timeout rest with
    | none => rfl
    | some p => obtain ⟨a, t⟩ := p; rfl
  · intro timeout msgs
    induction msgs with
    | nil => intro a t h; simp [wait_for_response] at h
    | cons m rest ih =>
      intro a t h
      unfold wait_for_response at h
      by_cases h1 : m.delay > timeout
      · rw [if_pos h1] at h; exact absurd h (by simp)
      · rw [if_neg h1] at h
        by_cases h2 : m.content.length > MAX_QUESTION_LEN
        · rw [if_pos h2] at h
          cases hrec : wait_for_response timeout rest with
          | none => rw [hrec] at h; exact absurd h (by simp)
          | some p =>
            obtain ⟨a', t'⟩ := p
            rw [hrec] at h
            simp only [Option.some.injEq, Prod.mk.injEq] at h
            obtain ⟨rfl, rfl⟩ := h
            have := ih a' t' hrec
            simp only [List.length_cons, Nat.mul_succ]
            omega
        · rw [if_neg h2] at h
          simp only [Option.some.injEq, Prod.mk.injEq] at h
          obtain ⟨rfl, rfl⟩ := h
          simp only [List.length_cons, Nat.mul_succ]
          omega
  · intro bound timeout htpos
    refine ⟨List.replicate bound ⟨overlong_reply, timeout⟩ ++ [⟨"ok", timeout⟩],
      "ok", bound * timeout + timeout, wait_for_response_replicate timeout bound, ?_⟩
    have : bound ≤ bound * timeout := Nat.le_mul_of_pos_right bound htpos
    omega

/-- Witness: a run with two over-length answers at the edge of each window
is accepted after three full windows, exceeding any single window. -/
theorem wait_for_response_timeout_reset_witness :
    ∃ (msgs : List Incoming) (a : String) (t : Nat),
      wait_for_response 30 msgs = some (a, t) ∧ t > 60 :=
  wait_for_response_timeout_reset.2.2 60 30 (by decide)
